import Mathlib

/-!
Verification of the intent/entity extraction core of the Strom voice
assistant (`src/core/nlp_engine.py`, `src/core/conversation_manager.py`).

The Python code is shallowly embedded: strings are Lean `String`s
(processed as `List Char`), Python `dict`s that hold entities become
association lists preserving insertion order, and every regular
expression used by the source is hand-translated into an executable
matching function with Python `re.search`/`re.sub` leftmost-match,
greedy-with-backtracking semantics.  Character classes are modelled at
their ASCII fragment, matching the ASCII inputs the assistant handles.
-/

/-! ### Character classes and basic string operations -/

/-- ASCII lower-casing, the fragment of Python `str.lower` exercised here. -/
def asciiLower (c : Char) : Char :=
  if 'A' ≤ c ∧ c ≤ 'Z' then Char.ofNat (c.toNat + 32) else c

/-- Python `\s` / `str.isspace` at its ASCII fragment. -/
def pyIsSpace (c : Char) : Bool :=
  c = ' ' || c = '\t' || c = '\n' || c = '\r' || c = Char.ofNat 11 || c = Char.ofNat 12

/-- Python `\d` at its ASCII fragment. -/
def isDigitChar (c : Char) : Bool :=
  '0' ≤ c && c ≤ '9'

/-- Python `\w` at its ASCII fragment. -/
def isWordChar (c : Char) : Bool :=
  c.isAlpha || isDigitChar c || c = '_'

/-- `startsWithL pat l` : `pat` is a leading subsequence of `l`. -/
def startsWithL : List Char → List Char → Bool
  | [], _ => true
  | _ :: _, [] => false
  | p :: ps, c :: cs => p = c && startsWithL ps cs

/-- `hasSubL pat l` : `pat` occurs contiguously inside `l` (Python `in`). -/
def hasSubL (pat : List Char) : List Char → Bool
  | [] => startsWithL pat []
  | c :: cs => startsWithL pat (c :: cs) || hasSubL pat cs

/-- Python `pat in s` on strings. -/
def hasSub (pat s : String) : Bool :=
  hasSubL pat.data s.data

/-- Python `str.strip()` (ASCII whitespace fragment). -/
def pyStripL (l : List Char) : List Char :=
  ((l.dropWhile pyIsSpace).reverse.dropWhile pyIsSpace).reverse

/-- Numeric value of a digit string, as Python `int` on a `\d+` capture. -/
def natOfDigits (l : List Char) : Nat :=
  l.foldl (fun a c => a * 10 + (c.toNat - 48)) 0

/-- Python `str.replace pat rep` (all occurrences, left to right,
non-overlapping), with structural fuel so that the kernel can evaluate
it; `fuel = l.length` always suffices since every step consumes at least
one character.  All patterns used by the source are nonempty. -/
def replaceAllF (pat rep : List Char) : Nat → List Char → List Char
  | 0, l => l
  | _ + 1, [] => []
  | n + 1, c :: cs =>
    if startsWithL pat (c :: cs) then
      rep ++ replaceAllF pat rep n (cs.drop (pat.length - 1))
    else
      c :: replaceAllF pat rep n cs

/-- Python `str.replace pat rep` on character lists. -/
def replaceAllL (pat rep : List Char) (l : List Char) : List Char :=
  replaceAllF pat rep l.length l

/-- Python `str.replace` on strings. -/
def pyReplace (s pat rep : String) : String :=
  String.mk (replaceAllL pat.data rep.data s.data)

/-- `re.search` position scan: try the attempt at every position, left to
right, including the empty suffix, and return the first success. -/
def scanFirst {α : Type} (att : List Char → Option α) : List Char → Option α
  | [] => att []
  | c :: cs =>
    match att (c :: cs) with
    | some x => some x
    | none => scanFirst att cs

/-- `re.sub(pat, '', text)`: `att` returns the length of the match starting
at the given suffix.  Matches are removed, scanning resumes after each
match; every pattern used by the source matches at least two characters. -/
def subAllF (att : List Char → Option Nat) : Nat → List Char → List Char
  | 0, l => l
  | _ + 1, [] => []
  | n + 1, c :: cs =>
    match att (c :: cs) with
    | some k => subAllF att n (cs.drop (k - 1))
    | none => c :: subAllF att n cs

/-- `re.sub(pat, '', text)` driven by enough fuel for the whole text. -/
def subAll (att : List Char → Option Nat) (l : List Char) : List Char :=
  subAllF att l.length l

/-! ### Entity values

Python entity dictionaries map string keys to strings, ints or `None`;
insertion order is preserved, so an association list is the model. -/

inductive EVal where
  | vs : String → EVal
  | vn : Nat → EVal
  | vnone : EVal
deriving DecidableEq, Repr

abbrev EntityMap := List (String × EVal)

/-! ### Intent classifier (`NLPEngine.extract_intent`)

The Python intent table is a `dict` built by a single literal, so its
iteration order is exactly the order written in the source. -/

/-- `NLPEngine.intent_patterns`, in source order. -/
def intent_patterns : List (String × List String) :=
  [ ("shutdown", ["shutdown", "shut down", "power off", "turn off computer"])
  , ("restart", ["restart", "reboot", "reset computer"])
  , ("lock", ["lock", "lock screen", "lock computer"])
  , ("sleep", ["sleep", "hibernate", "suspend"])
  , ("open_app", ["open", "launch", "start", "run"])
  , ("close_app", ["close", "quit", "exit", "kill"])
  , ("volume", ["volume", "sound", "mute", "unmute"])
  , ("brightness", ["brightness", "screen brightness", "dim", "brighten"])
  , ("set_alarm", ["alarm", "wake me", "set alarm"])
  , ("set_reminder", ["remind", "reminder", "remember"])
  , ("create_todo", ["todo", "to do", "task", "add task"])
  , ("list_todos", ["list tasks", "show tasks", "what tasks", "my tasks"])
  , ("set_timer", ["timer", "set timer", "countdown"])
  , ("send_whatsapp", ["whatsapp", "send whatsapp", "message on whatsapp"])
  , ("send_email", ["email", "send email", "mail"])
  , ("weather", ["weather", "temperature", "forecast"])
  , ("time", ["time", "what time", "current time"])
  , ("date", ["date", "what date", "today"])
  , ("news", ["news", "headlines", "latest news"])
  , ("search", ["search", "look up", "find", "google"])
  , ("wikipedia", ["wikipedia", "wiki", "tell me about"])
  , ("greeting", ["hello", "hi", "hey", "good morning", "good afternoon", "good evening"])
  , ("thanks", ["thank", "thanks", "thank you"])
  , ("goodbye", ["bye", "goodbye", "see you", "exit"])
  , ("help", ["help", "what can you do", "commands", "capabilities"]) ]

/-- `text.lower().strip()` as performed at the top of `extract_intent`
and `extract_entities`. -/
def normCmd (text : String) : List Char :=
  pyStripL (text.data.map asciiLower)

/-- One intent row fires when any of its keywords occurs in the text. -/
def intentHit (t : List Char) (p : String × List String) : Bool :=
  p.2.any (fun k => hasSubL k.data t)

/-- `NLPEngine.extract_intent`: first row of the table with a keyword
occurring in the lower-cased, stripped text; fallback `general_query`. -/
def extract_intent (text : String) : String :=
  match intent_patterns.find? (intentHit (normCmd text)) with
  | some p => p.1
  | none => "general_query"

example : extract_intent "Open Chrome" = "open_app" := by decide
example : extract_intent "banana" = "general_query" := by decide
example : extract_intent "  whatsapp email  " = "send_whatsapp" := by decide

/-! ### Time extraction (`NLPEngine._extract_time`)

Clock regex `(\d{1,2})(?::(\d{2}))?\s*(am|pm|a\.m\.|p\.m\.)?`: everything
after the first group is optional and can match the empty string, so a
`re.search` match starts at the first digit of the text and no
backtracking can occur; `\d{1,2}`, the optional `:MM` group, `\s*` and the
period alternation are each taken greedily. -/

/-- Attempt of the clock regex at one position: hour digits value,
optional minute capture, optional period capture. -/
def clockAtt : List Char → Option (Nat × Option Nat × Option (List Char))
  | [] => none
  | c :: cs =>
    if isDigitChar c then
      let hr2 : Nat × List Char :=
        match cs with
        | d :: cs₂ => if isDigitChar d then (natOfDigits [c, d], cs₂) else (natOfDigits [c], cs)
        | [] => (natOfDigits [c], [])
      let mr3 : Option Nat × List Char :=
        match hr2.2 with
        | ':' :: a :: b :: r₂ =>
          if isDigitChar a && isDigitChar b then (some (natOfDigits [a, b]), r₂)
          else (none, hr2.2)
        | _ => (none, hr2.2)
      let r4 := mr3.2.dropWhile pyIsSpace
      let pOpt : Option (List Char) :=
        if startsWithL ['a', 'm'] r4 then some ['a', 'm']
        else if startsWithL ['p', 'm'] r4 then some ['p', 'm']
        else if startsWithL ['a', '.', 'm', '.'] r4 then some ['a', '.', 'm', '.']
        else if startsWithL ['p', '.', 'm', '.'] r4 then some ['p', '.', 'm', '.']
        else none
      some (hr2.1, mr3.1, pOpt)
    else none

/-- Leftmost clock-regex match of the text. -/
def searchClock (l : List Char) : Option (Nat × Option Nat × Option (List Char)) :=
  scanFirst clockAtt l

/-- Python `'pm' in period.lower()`. -/
def pmIn (p : List Char) : Bool :=
  hasSubL ['p', 'm'] (p.map asciiLower)

/-- Python `'am' in period.lower()`. -/
def amIn (p : List Char) : Bool :=
  hasSubL ['a', 'm'] (p.map asciiLower)

/-- The 24-hour normalization applied by `_extract_time` to a matched
hour/period pair. -/
def normalizeHour (h : Nat) (pOpt : Option (List Char)) : Nat :=
  match pOpt with
  | some p => if pmIn p && h != 12 then h + 12 else if amIn p && h == 12 then 0 else h
  | none => h

/-- The `hour`/`minute` entries produced by `_extract_time`. -/
def clockEntries (l : List Char) : EntityMap :=
  match searchClock l with
  | some (h, mOpt, pOpt) =>
    [("hour", EVal.vn (normalizeHour h pOpt)), ("minute", EVal.vn (mOpt.getD 0))]
  | none => []

/-- Attempt of a duration regex `(\d+)\s*LIT` at one position: maximal
digit run, maximal whitespace run, then the literal unit; the greedy runs
never backtrack because the following token can match neither a digit nor
a whitespace character. -/
def numLitAtt (lit : List Char) : List Char → Option Nat
  | [] => none
  | c :: cs =>
    if isDigitChar c then
      let ds := (c :: cs).takeWhile isDigitChar
      let r1 := ((c :: cs).dropWhile isDigitChar).dropWhile pyIsSpace
      if startsWithL lit r1 then some (natOfDigits ds) else none
    else none

/-- Leftmost match of `(\d+)\s*LIT`. -/
def searchNumLit (lit : List Char) (l : List Char) : Option Nat :=
  scanFirst (numLitAtt lit) l

/-- The duration loop of `_extract_time`: the three unit patterns are
tried in the order hours, minutes, seconds, and each successful match
overwrites `duration_seconds`. -/
def durOf (l : List Char) : Option Nat :=
  let r1 : Option Nat :=
    match searchNumLit "hour".data l with
    | some v => some (v * 3600)
    | none => none
  let r2 : Option Nat :=
    match searchNumLit "minute".data l with
    | some v => some (v * 60)
    | none => r1
  match searchNumLit "second".data l with
  | some v => some v
  | none => r2

/-- `NLPEngine._extract_time`. -/
def _extract_time (text : String) : EntityMap :=
  clockEntries text.data ++
    (match durOf text.data with
     | some v => [("duration_seconds", EVal.vn v)]
     | none => [])

example : _extract_time "set alarm for 7:30 pm" =
    [("hour", EVal.vn 19), ("minute", EVal.vn 30)] := by decide
example : _extract_time "remind me in 2 hours" =
    [("hour", EVal.vn 2), ("minute", EVal.vn 0), ("duration_seconds", EVal.vn 7200)] := by
  decide
example : _extract_time "in 1 hour 30 minutes" =
    [("hour", EVal.vn 1), ("minute", EVal.vn 0), ("duration_seconds", EVal.vn 1800)] := by
  decide
example : _extract_time "wake me at 12 am" =
    [("hour", EVal.vn 0), ("minute", EVal.vn 0)] := by decide

/-! ### Recipient and message extraction
(`NLPEngine._extract_recipient`, `NLPEngine._extract_message`) -/

/-- The capture `(\w+(?:\s+\w+)?)`: a maximal word, optionally followed by
whitespace and a second maximal word (taken greedily when present).  The
inner `\s+` never backtracks: `\w+` cannot start on a whitespace
character. -/
def captureWords : List Char → Option (List Char)
  | [] => none
  | c :: cs =>
    if isWordChar c then
      let w1 := (c :: cs).takeWhile isWordChar
      let r := (c :: cs).dropWhile isWordChar
      let sp := r.takeWhile pyIsSpace
      let r2 := r.dropWhile pyIsSpace
      if sp.isEmpty then some w1
      else
        match r2 with
        | d :: _ => if isWordChar d then some (w1 ++ sp ++ r2.takeWhile isWordChar) else some w1
        | [] => some w1
    else none

/-- Attempt of `(?:to|message)\s+(\w+(?:\s+\w+)?)` at one position.  The
alternatives start with distinct characters, so at most one applies. -/
def recipAtt1 (l : List Char) : Option (List Char) :=
  let afterLit : Option (List Char) :=
    if startsWithL "to".data l then some (l.drop 2)
    else if startsWithL "message".data l then some (l.drop 7)
    else none
  match afterLit with
  | some r =>
    if (r.takeWhile pyIsSpace).isEmpty then none
    else captureWords (r.dropWhile pyIsSpace)
  | none => none

/-- Attempt of `(?:whatsapp|email)\s+(?:to\s+)?(\w+(?:\s+\w+)?)` at one
position.  The optional `to\s+` is taken greedily when it is present and
the capture succeeds after it; otherwise the engine backtracks and the
capture starts at `to` itself. -/
def recipAtt2 (l : List Char) : Option (List Char) :=
  let afterLit : Option (List Char) :=
    if startsWithL "whatsapp".data l then some (l.drop 8)
    else if startsWithL "email".data l then some (l.drop 5)
    else none
  match afterLit with
  | some r =>
    if (r.takeWhile pyIsSpace).isEmpty then none
    else
      let r1 := r.dropWhile pyIsSpace
      if startsWithL "to".data r1 then
        let r2 := r1.drop 2
        if (r2.takeWhile pyIsSpace).isEmpty then captureWords r1
        else
          match captureWords (r2.dropWhile pyIsSpace) with
          | some cap => some cap
          | none => captureWords r1
      else captureWords r1
  | none => none

/-- `NLPEngine._extract_recipient`: the two patterns are searched in
order; the stripped first capture of the first pattern that matches is
returned, else the empty string. -/
def _extract_recipient (text : String) : String :=
  match scanFirst recipAtt1 text.data with
  | some cap => String.mk (pyStripL cap)
  | none =>
    match scanFirst recipAtt2 text.data with
    | some cap => String.mk (pyStripL cap)
    | none => ""

/-- Case-insensitive literal prefix test (patterns are lower case). -/
def startsWithCIL : List Char → List Char → Bool
  | [], _ => true
  | _ :: _, [] => false
  | p :: ps, c :: cs => p = asciiLower c && startsWithCIL ps cs

/-- `\s*(.+)` with a greedy `\s*` that backtracks when nothing non-newline
is left for `(.+)`; the group then runs to the end of the line. -/
def wsStarDot : List Char → Option (List Char)
  | [] => none
  | c :: cs =>
    if pyIsSpace c then
      match wsStarDot cs with
      | some g => some g
      | none => if c ≠ '\n' then some ((c :: cs).takeWhile (fun d => d ≠ '\n')) else none
    else
      if c ≠ '\n' then some ((c :: cs).takeWhile (fun d => d ≠ '\n')) else none

/-- Attempt of `(?:LIT|...)\s+(.+)` (IGNORECASE) at one position, trying
the alternatives in order. -/
def msgAttFor (lits : List (List Char)) (l : List Char) : Option (List Char) :=
  match lits with
  | [] => none
  | lit :: rest =>
    let here : Option (List Char) :=
      if startsWithCIL lit l then
        match l.drop lit.length with
        | c :: cs => if pyIsSpace c then wsStarDot (c :: cs) else none
        | [] => none
      else none
    match here with
    | some g => some g
    | none => msgAttFor rest l

/-- `NLPEngine._extract_message`: `(?:saying|message|text)\s+(.+)` then
`(?:that|tell them)\s+(.+)`, both IGNORECASE; stripped capture, else "". -/
def _extract_message (text : String) : String :=
  match scanFirst (msgAttFor ["saying".data, "message".data, "text".data]) text.data with
  | some g => String.mk (pyStripL g)
  | none =>
    match scanFirst (msgAttFor ["that".data, "tell them".data]) text.data with
    | some g => String.mk (pyStripL g)
    | none => ""

example : _extract_recipient "send whatsapp to john saying hello there" = "john saying" := by
  decide
example : _extract_message "send whatsapp to john saying hello there" = "hello there" := by
  decide

/-! ### App-name extraction (`NLPEngine._extract_app_name`) -/

/-- `NLPEngine.app_aliases`, in source order. -/
def app_aliases : List (String × String) :=
  [ ("chrome", "google chrome")
  , ("browser", "google chrome")
  , ("notepad", "notepad")
  , ("calculator", "calculator")
  , ("calc", "calculator")
  , ("word", "microsoft word")
  , ("excel", "microsoft excel")
  , ("powerpoint", "microsoft powerpoint")
  , ("explorer", "file explorer")
  , ("files", "file explorer")
  , ("code", "visual studio code")
  , ("vscode", "visual studio code")
  , ("spotify", "spotify")
  , ("music", "spotify") ]

/-- Attempt of `LIT\s+(\w+)` at one position. -/
def appWordAtt (lit : List Char) (l : List Char) : Option (List Char) :=
  if startsWithL lit l then
    let r := l.drop lit.length
    if (r.takeWhile pyIsSpace).isEmpty then none
    else
      let r1 := r.dropWhile pyIsSpace
      match r1 with
      | c :: _ => if isWordChar c then some (r1.takeWhile isWordChar) else none
      | [] => none
  else none

/-- `NLPEngine._extract_app_name`: first alias whose key occurs in the
text wins; else the four regex fallbacks in order; else `"unknown"`. -/
def _extract_app_name (text : String) : String :=
  match app_aliases.find? (fun p => hasSub p.1 text) with
  | some p => p.2
  | none =>
    match scanFirst (appWordAtt "open".data) text.data with
    | some w => String.mk w
    | none =>
      match scanFirst (appWordAtt "launch".data) text.data with
      | some w => String.mk w
      | none =>
        match scanFirst (appWordAtt "close".data) text.data with
        | some w => String.mk w
        | none =>
          match scanFirst (appWordAtt "start".data) text.data with
          | some w => String.mk w
          | none => "unknown"

example : _extract_app_name "open chrome" = "google chrome" := by decide
example : _extract_app_name "open xyz123" = "xyz123" := by decide
example : _extract_app_name "open" = "unknown" := by decide

/-! ### Level and action extraction
(`NLPEngine._extract_level`, `NLPEngine._extract_action`) -/

/-- Attempt of `(\d+)\s*(?:percent|%)` at one position. -/
def percentAtt : List Char → Option Nat
  | [] => none
  | c :: cs =>
    if isDigitChar c then
      let ds := (c :: cs).takeWhile isDigitChar
      let r1 := ((c :: cs).dropWhile isDigitChar).dropWhile pyIsSpace
      if startsWithL "percent".data r1 || startsWithL ['%'] r1 then some (natOfDigits ds)
      else none
    else none

/-- `NLPEngine._extract_level`: explicit percentage first, then the
keyword buckets, else `none`. -/
def _extract_level (text : String) : Option Nat :=
  match scanFirst percentAtt text.data with
  | some v => some v
  | none =>
    if ["max", "maximum", "full", "hundred"].any (fun w => hasSub w text) then some 100
    else if ["min", "minimum", "zero"].any (fun w => hasSub w text) then some 0
    else if ["half", "fifty"].any (fun w => hasSub w text) then some 50
    else none

/-- `NLPEngine._extract_action`: keyword buckets checked in source
order, default `"set"`. -/
def _extract_action (text : String) : String :=
  if ["up", "increase", "raise", "higher", "louder", "brighter"].any (fun w => hasSub w text)
    then "increase"
  else if ["down", "decrease", "lower", "dimmer", "quieter"].any (fun w => hasSub w text)
    then "decrease"
  else if hasSub "mute" text || hasSub "silent" text then "mute"
  else if hasSub "unmute" text then "unmute"
  else "set"

/-! ### Task text extraction (`NLPEngine._extract_task_text`) -/

/-- The stopword list `remove_words` of `_extract_task_text`, in source
order; each is removed everywhere by `str.replace`. -/
def remove_words : List String :=
  ["todo", "to do", "task", "remind", "reminder", "create", "add", "set"]

/-- Attempt of `at\s+\d{1,2}(?::\d{2})?\s*(?:am|pm)?` at one position,
returning the matched length; the trailing `\s*` keeps any whitespace it
consumed even when no period follows. -/
def timeSub1Att (l : List Char) : Option Nat :=
  if startsWithL "at".data l then
    let r := l.drop 2
    let sp := r.takeWhile pyIsSpace
    if sp.isEmpty then none
    else
      let r1 := r.dropWhile pyIsSpace
      match r1 with
      | c :: cs =>
        if isDigitChar c then
          let dlen : Nat :=
            match cs with
            | d :: _ => if isDigitChar d then 2 else 1
            | [] => 1
          let r2 := r1.drop dlen
          let clen : Nat :=
            match r2 with
            | ':' :: a :: b :: _ => if isDigitChar a && isDigitChar b then 3 else 0
            | _ => 0
          let r3 := r2.drop clen
          let sp2 := r3.takeWhile pyIsSpace
          let r4 := r3.dropWhile pyIsSpace
          let plen : Nat :=
            if startsWithL "am".data r4 || startsWithL "pm".data r4 then 2 else 0
          some (2 + sp.length + dlen + clen + sp2.length + plen)
        else none
      | [] => none
  else none

/-- Attempt of `(?:in|after)\s+\d+\s+(?:hour|minute|second)s?` at one
position, returning the matched length. -/
def timeSub2Att (l : List Char) : Option Nat :=
  let litlen : Option Nat :=
    if startsWithL "in".data l then some 2
    else if startsWithL "after".data l then some 5
    else none
  match litlen with
  | some n =>
    let r := l.drop n
    let sp := r.takeWhile pyIsSpace
    if sp.isEmpty then none
    else
      let r1 := r.dropWhile pyIsSpace
      let ds := r1.takeWhile isDigitChar
      if ds.isEmpty then none
      else
        let r2 := r1.dropWhile isDigitChar
        let sp2 := r2.takeWhile pyIsSpace
        if sp2.isEmpty then none
        else
          let r3 := r2.dropWhile pyIsSpace
          let ulen : Option Nat :=
            if startsWithL "hour".data r3 then some 4
            else if startsWithL "minute".data r3 then some 6
            else if startsWithL "second".data r3 then some 6
            else none
          match ulen with
          | some u =>
            let slen : Nat :=
              match r3.drop u with
              | 's' :: _ => 1
              | _ => 0
            some (n + sp.length + ds.length + sp2.length + u + slen)
          | none => none
  | none => none

/-- `NLPEngine._extract_task_text`: remove each stopword everywhere, in
order; then delete all matches of the two time-expression patterns; then
strip.  The intent argument is accepted and ignored, as in the source. -/
def _extract_task_text (text : String) (_intent : String) : String :=
  let cleaned := remove_words.foldl (fun t w => replaceAllL w.data [] t) text.data
  String.mk (pyStripL (subAll timeSub2Att (subAll timeSub1Att cleaned)))

example : _extract_task_text "remind me to call mom at 5pm" "set_reminder" = "me to call mom" := by
  decide

/-! ### Search query extraction (`NLPEngine._extract_search_query`) -/

/-- Attempt of `W1\s+W2\s+...\s+` (IGNORECASE, each word followed by at
least one whitespace character) at one position, returning the length. -/
def wordsGapAtt (ws : List (List Char)) (l : List Char) : Option Nat :=
  match ws with
  | [] => some 0
  | w :: rest =>
    if startsWithCIL w l then
      let r := l.drop w.length
      let sp := r.takeWhile pyIsSpace
      if sp.isEmpty then none
      else
        match wordsGapAtt rest (r.dropWhile pyIsSpace) with
        | some k => some (w.length + sp.length + k)
        | none => none
    else none

/-- Attempt of `W\s+(?:WOPT\s+)?` at one position: the optional second
word is consumed greedily when present. -/
def optTailAtt (ws : List (List Char)) (wopt : List Char) (l : List Char) : Option Nat :=
  match wordsGapAtt ws l with
  | some k =>
    match wordsGapAtt [wopt] (l.drop k) with
    | some k2 => some (k + k2)
    | none => some k
  | none => none

/-- `NLPEngine._extract_search_query`: six `re.sub` deletions applied in
source order, then strip.  The intent argument is ignored, as in the
source. -/
def _extract_search_query (text : String) (_intent : String) : String :=
  let c1 := subAll (optTailAtt ["search".data] "for".data) text.data
  let c2 := subAll (wordsGapAtt ["look".data, "up".data]) c1
  let c3 := subAll (optTailAtt ["find".data] "me".data) c2
  let c4 := subAll (wordsGapAtt ["google".data]) c3
  let c5 := subAll (wordsGapAtt ["wikipedia".data]) c4
  let c6 := subAll (wordsGapAtt ["tell".data, "me".data, "about".data]) c5
  String.mk (pyStripL c6)

example : _extract_search_query "search for python tutorials" "search" = "python tutorials" := by
  decide

/-! ### Entity dispatch and top-level processing
(`NLPEngine.extract_entities`, `NLPEngine.process`) -/

/-- `NLPEngine.extract_entities`: the per-category extractors are invoked
on the lower-cased, stripped text for the categories relevant to the
intent, in source order. -/
def extract_entities (text : String) (intent : String) : EntityMap :=
  let tl := String.mk (normCmd text)
  (if intent = "open_app" ∨ intent = "close_app" then
    [("app_name", EVal.vs (_extract_app_name tl))]
  else []) ++
  (if intent = "send_whatsapp" ∨ intent = "send_email" then
    [("recipient", EVal.vs (_extract_recipient tl)), ("message", EVal.vs (_extract_message tl))]
  else []) ++
  (if intent = "set_alarm" ∨ intent = "set_reminder" ∨ intent = "set_timer" then
    _extract_time tl
  else []) ++
  (if intent = "create_todo" ∨ intent = "set_reminder" then
    [("task", EVal.vs (_extract_task_text tl intent))]
  else []) ++
  (if intent = "search" ∨ intent = "wikipedia" then
    [("query", EVal.vs (_extract_search_query tl intent))]
  else []) ++
  (if intent = "volume" ∨ intent = "brightness" then
    [("level", match _extract_level tl with | some v => EVal.vn v | none => EVal.vnone),
     ("action", EVal.vs (_extract_action tl))]
  else [])

/-- Python `not text or not text.strip()`: the text is empty or consists
only of whitespace. -/
def pyBlank (text : String) : Bool :=
  text.data.all pyIsSpace

/-- `NLPEngine.process`: blank input short-circuits to
`("unknown", {})`; otherwise classify, then extract. -/
def process (text : String) : String × EntityMap :=
  if pyBlank text then ("unknown", [])
  else
    let intent := extract_intent text
    (intent, extract_entities text intent)

example : process "" = ("unknown", []) := by decide
example : process "   " = ("unknown", []) := by decide
example : process "send whatsapp to john saying hello there" =
    ("send_whatsapp",
     [("recipient", EVal.vs "john saying"), ("message", EVal.vs "hello there")]) := by decide

/-! ### Reference resolver
(`ConversationManager.resolve_pronoun_reference`)

The context keys `last_app` / `last_recipient` are modelled as optional
fields; a present key holds a string value. -/

structure ConvContext where
  lastApp : Option String
  lastRecipient : Option String

/-- The first branch of `resolve_pronoun_reference`: when `it`, `that` or
`this` occurs in the lower-cased text and `last_app` is present, replace
every occurrence of `it` and then of `that` in the running text. -/
def appStep (ctx : ConvContext) (tl : String) (text : String) : String :=
  if hasSub "it" tl || hasSub "that" tl || hasSub "this" tl then
    match ctx.lastApp with
    | some app => pyReplace (pyReplace text "it" app) "that" app
    | none => text
  else text

/-- The second branch: when `him`, `her` or `them` occurs in the
lower-cased original text and `last_recipient` is present, replace every
occurrence of `him`, `her` and `them` in the running text. -/
def recipStep (ctx : ConvContext) (tl : String) (text : String) : String :=
  if hasSub "him" tl || hasSub "her" tl || hasSub "them" tl then
    match ctx.lastRecipient with
    | some r => pyReplace (pyReplace (pyReplace text "him" r) "her" r) "them" r
    | none => text
  else text

/-- `ConversationManager.resolve_pronoun_reference`: `text_lower` is
computed once from the input; both branch conditions test it, while the
replacements chain on the running text. -/
def resolve_pronoun_reference (ctx : ConvContext) (text : String) : String :=
  let tl := String.mk (text.data.map asciiLower)
  recipStep ctx tl (appStep ctx tl text)

example : resolve_pronoun_reference ⟨some "chrome", none⟩ "close it" = "close chrome" := by
  decide
example : resolve_pronoun_reference ⟨none, none⟩ "close it" = "close it" := by decide
example : resolve_pronoun_reference ⟨some "chrome", some "bob"⟩ "open spotify" =
    "open spotify" := by decide

/-! ### Task-id extraction -/

/-- Modelled from the spec: the repository has no task-id extractor
(spec §4.3 describes one, but `src/core/nlp_engine.py` and the task
manager contain none).  Following the spec's words: a single regex
capturing a number after `task`/`number`, parsed as an integer; absent →
`None`. -/
def taskIdAtt (l : List Char) : Option Nat :=
  let litlen : Option Nat :=
    if startsWithL "task".data l then some 4
    else if startsWithL "number".data l then some 6
    else none
  match litlen with
  | some k =>
    let r := (l.drop k).dropWhile pyIsSpace
    let ds := r.takeWhile isDigitChar
    if ds.isEmpty then none else some (natOfDigits ds)
  | none => none

/-- Modelled from the spec (continued): leftmost match of the task-id
regex, else `None`. -/
def extract_task_id (text : String) : Option Nat :=
  scanFirst taskIdAtt text.data

example : extract_task_id "complete task 3" = some 3 := by decide
example : extract_task_id "complete the report" = none := by decide

/-! ### Helper lemmas -/

theorem findNoneOfAll {α : Type} (q : α → Bool) :
    ∀ l : List α, (∀ x ∈ l, q x = false) → l.find? q = none := by
  intro l h
  induction l with
  | nil => rfl
  | cons a t ih =>
    have ha : q a = false := h a (by simp)
    simp only [List.find?, ha]
    exact ih (fun x hx => h x (by simp [hx]))

theorem allOfFindNone {α : Type} (q : α → Bool) :
    ∀ l : List α, l.find? q = none → ∀ x ∈ l, q x = false := by
  intro l h
  induction l with
  | nil => intro x hx; simp at hx
  | cons a t ih =>
    intro x hx
    by_cases ha : q a = true
    · simp only [List.find?, ha] at h
      exact absurd h (by simp)
    · have ha' : q a = false := by simpa using ha
      simp only [List.find?, ha'] at h
      rcases List.mem_cons.1 hx with rfl | hx'
      · exact ha'
      · exact ih h x hx'

theorem findFirstIdx {α : Type} (q : α → Bool) :
    ∀ (l : List α) (j : Nat) (hj : j < l.length),
      q (l.get ⟨j, hj⟩) = true →
      (∀ (i : Nat) (hi : i < l.length), i < j → q (l.get ⟨i, hi⟩) = false) →
      l.find? q = some (l.get ⟨j, hj⟩) := by
  intro l
  induction l with
  | nil => intro j hj; simp at hj
  | cons a t ih =>
    intro j hj hq hlt
    cases j with
    | zero =>
      simp only [List.get] at hq ⊢
      simp only [List.find?, hq]
    | succ j =>
      have ha : q a = false := hlt 0 (by simp) (Nat.succ_pos j)
      have hj' : j < t.length := by simpa using hj
      have hq' : q (t.get ⟨j, hj'⟩) = true := by simpa using hq
      have hlt' : ∀ (i : Nat) (hi : i < t.length), i < j → q (t.get ⟨i, hi⟩) = false := by
        intro i hi hij
        have := hlt (i + 1) (by simpa using Nat.succ_lt_succ hi) (Nat.succ_lt_succ hij)
        simpa using this
      simp only [List.find?, ha]
      simpa using ih j hj' hq' hlt'

theorem findMinIdx {α : Type} (q : α → Bool) :
    ∀ (l : List α) (j : Nat) (hj : j < l.length), q (l.get ⟨j, hj⟩) = true →
      ∃ (i : Nat) (hi : i < l.length), i ≤ j ∧ q (l.get ⟨i, hi⟩) = true ∧
        l.find? q = some (l.get ⟨i, hi⟩) := by
  intro l
  induction l with
  | nil => intro j hj; simp at hj
  | cons a t ih =>
    intro j hj hq
    by_cases ha : q a = true
    · exact ⟨0, by simp, Nat.zero_le j, by simpa using ha, by simp [List.find?, ha]⟩
    · have ha' : q a = false := by simpa using ha
      cases j with
      | zero => simp only [List.get] at hq; exact absurd hq ha
      | succ j =>
        have hj' : j < t.length := by simpa using hj
        have hq' : q (t.get ⟨j, hj'⟩) = true := by simpa using hq
        obtain ⟨i, hi, hij, hqi, hfind⟩ := ih j hj' hq'
        refine ⟨i + 1, by simpa using Nat.succ_lt_succ hi, Nat.succ_le_succ hij, ?_, ?_⟩
        · simpa using hqi
        · simp only [List.find?, ha']
          simpa using hfind

/-- A failing scan: if a predicate `P` implies the attempt fails and is
inherited by tails, texts satisfying `P` admit no match anywhere. -/
theorem scanFirstNoneInd {α : Type} (att : List Char → Option α) (P : List Char → Prop)
    (hatt : ∀ l, P l → att l = none)
    (hstep : ∀ c cs, P (c :: cs) → P cs) :
    ∀ l, P l → scanFirst att l = none := by
  intro l
  induction l with
  | nil => intro h; simpa [scanFirst] using hatt [] h
  | cons c cs ih =>
    intro h
    simp only [scanFirst, hatt _ h]
    exact ih (hstep c cs h)

theorem subHead (p : List Char) :
    ∀ l : List Char, hasSubL p l = false → startsWithL p l = false := by
  intro l h
  cases l with
  | nil => simpa [hasSubL] using h
  | cons c cs =>
    rw [hasSubL] at h
    exact (Bool.or_eq_false_iff.1 h).1

theorem subTail (p : List Char) (c : Char) (cs : List Char)
    (h : hasSubL p (c :: cs) = false) : hasSubL p cs = false := by
  rw [hasSubL] at h
  exact (Bool.or_eq_false_iff.1 h).2

theorem swNilEq : ∀ p : List Char, startsWithL p [] = true → p = [] := by
  intro p h
  cases p with
  | nil => rfl
  | cons a as => simp [startsWithL] at h

theorem swImpSub (pat : List Char) :
    ∀ (pre : List Char) (l : List Char),
      startsWithL (pre ++ pat) l = true → hasSubL pat l = true := by
  intro pre
  induction pre with
  | nil =>
    intro l h
    cases l with
    | nil => simp only [List.nil_append] at h; simp [hasSubL, h]
    | cons c cs =>
      rw [hasSubL]
      simp only [List.nil_append] at h
      simp [h]
  | cons a pre ih =>
    intro l h
    cases l with
    | nil => simp [startsWithL] at h
    | cons c cs =>
      simp only [startsWithL, Bool.and_eq_true] at h
      rw [hasSubL]
      simp [ih cs h.2]

theorem subTrans (pre pat : List Char) :
    ∀ l : List Char, hasSubL (pre ++ pat) l = true → hasSubL pat l = true := by
  intro l
  induction l with
  | nil =>
    intro h
    simp only [hasSubL] at h ⊢
    have := swNilEq _ h
    have hpat : pat = [] := by
      cases pre <;> simp_all
    simp [hpat, startsWithL]
  | cons c cs ih =>
    intro h
    rw [hasSubL] at h
    have h' : startsWithL (pre ++ pat) (c :: cs) = true ∨ hasSubL (pre ++ pat) cs = true := by
      simpa using h
    rcases h' with h1 | h2
    · exact swImpSub pat pre _ h1
    · rw [hasSubL]
      simp [ih h2]

theorem startsWithCIL_eq (p : List Char) :
    ∀ l : List Char, startsWithCIL p l = startsWithL p (l.map asciiLower) := by
  induction p with
  | nil => intro l; cases l <;> simp [startsWithCIL, startsWithL]
  | cons a p ih =>
    intro l
    cases l with
    | nil => simp [startsWithCIL, startsWithL]
    | cons c cs => simp [startsWithCIL, startsWithL, ih]

/-! ### Claim theorems -/

theorem intentNamesDistinct : ∀ i j : Fin intent_patterns.length, i ≠ j →
    (intent_patterns.get i).1 ≠ (intent_patterns.get j).1 := by decide

/-- C1: `extract_intent` lower-cases and strips the input and scans the
intent table in its defined order, returning the first intent one of
whose keywords is a substring of the text, and `general_query` when no
keyword matches.  For two matching intents the result is never the later
one: it is the earliest matching row of the table. -/
theorem extract_intent_table_order_spec (text : String) :
    ((∀ p ∈ intent_patterns, intentHit (normCmd text) p = false) →
        extract_intent text = "general_query")
  ∧ (∀ j : Fin intent_patterns.length,
        intentHit (normCmd text) (intent_patterns.get j) = true →
        (∀ i : Fin intent_patterns.length, (i : Nat) < (j : Nat) →
            intentHit (normCmd text) (intent_patterns.get i) = false) →
        extract_intent text = (intent_patterns.get j).1)
  ∧ (∀ j k : Fin intent_patterns.length, (j : Nat) < (k : Nat) →
        intentHit (normCmd text) (intent_patterns.get j) = true →
        intentHit (normCmd text) (intent_patterns.get k) = true →
        extract_intent text ≠ (intent_patterns.get k).1 ∧
        ∃ i : Fin intent_patterns.length, (i : Nat) ≤ (j : Nat) ∧
          intentHit (normCmd text) (intent_patterns.get i) = true ∧
          extract_intent text = (intent_patterns.get i).1) := by
  refine ⟨?_, ?_, ?_⟩
  · intro h
    unfold extract_intent
    rw [findNoneOfAll _ _ h]
  · intro j hq hlt
    unfold extract_intent
    rw [findFirstIdx _ _ j.1 j.2 hq (fun i hi hij => hlt ⟨i, hi⟩ hij)]
  · intro j k hjk hqj hqk
    obtain ⟨i, hi, hij, hqi, hfind⟩ := findMinIdx _ _ j.1 j.2 hqj
    have hres : extract_intent text = (intent_patterns.get ⟨i, hi⟩).1 := by
      unfold extract_intent; rw [hfind]
    refine ⟨?_, ⟨⟨i, hi⟩, hij, hqi, hres⟩⟩
    rw [hres]
    have hik : (⟨i, hi⟩ : Fin intent_patterns.length) ≠ k := by
      apply Fin.ne_of_val_ne
      show i ≠ (k : Nat)
      have hk : i < (k : Nat) := Nat.lt_of_le_of_lt hij hjk
      omega
    exact intentNamesDistinct ⟨i, hi⟩ k hik

theorem extract_intent_table_order_spec_witness :
    extract_intent "xyzzy" = "general_query" ∧
    extract_intent "whatsapp email" = "send_whatsapp" ∧
    extract_intent "whatsapp email" ≠ "send_email" := by
  refine ⟨(extract_intent_table_order_spec "xyzzy").1 (by decide), ?_, ?_⟩
  · have h := (extract_intent_table_order_spec "whatsapp email").2.1
      ⟨13, by decide⟩ (by decide) (by decide)
    exact h.trans (by decide)
  · have h := ((extract_intent_table_order_spec "whatsapp email").2.2
      ⟨13, by decide⟩ ⟨14, by decide⟩ (by decide) (by decide) (by decide)).1
    intro hc
    exact h (hc.trans (by decide))

/-- C2: blank input (empty or whitespace-only) short-circuits `process`
to the distinguished intent `unknown` with an empty entity map, before
any extractor runs. -/
theorem process_blank_unknown (text : String) (h : text.data.all pyIsSpace = true) :
    process text = ("unknown", []) := by
  simp [process, pyBlank, h]

theorem process_blank_unknown_witness :
    process "" = ("unknown", []) ∧ process "   " = ("unknown", []) := by
  exact ⟨process_blank_unknown "" (by decide), process_blank_unknown "   " (by decide)⟩

/-- C3 counterexample: on `"remind me in 2 hours"` the clock regex also
fires on the bare `2`, so the extracted map carries `hour = 2` (and
`minute = 0`) besides `duration_seconds = 7200`; it is not the map
`{duration_seconds: 7200}` alone, refuting the claim's second example. -/
theorem extract_time_two_hours_counter :
    List.lookup "hour" (_extract_time "remind me in 2 hours") = some (EVal.vn 2) ∧
    _extract_time "remind me in 2 hours" ≠ [("duration_seconds", EVal.vn 7200)] := by
  constructor <;> decide

/-- C3 amended: the clock regex matches `H[:MM][am|pm]` from the first
digit of the text, normalizing the hour to the 24-hour clock (`pm` with
hour ≠ 12 adds 12; `am` with hour 12 gives 0), and the duration phrase is
independently converted to seconds; `"set alarm for 7:30 pm"` yields
`{hour: 19, minute: 30}`, while `"remind me in 2 hours"` yields
`{hour: 2, minute: 0, duration_seconds: 7200}` because the bare `2` also
matches the clock regex. -/
theorem extract_time_spec_amended :
    (∀ (text : String) (h : Nat) (mo : Option Nat) (p : List Char),
        searchClock text.data = some (h, mo, some p) → pmIn p = true → h ≠ 12 →
        List.lookup "hour" (_extract_time text) = some (EVal.vn (h + 12)))
  ∧ (∀ (text : String) (mo : Option Nat) (p : List Char),
        searchClock text.data = some (12, mo, some p) → amIn p = true →
        List.lookup "hour" (_extract_time text) = some (EVal.vn 0))
  ∧ (∀ (text : String) (v : Nat),
        searchNumLit "hour".data text.data = some v →
        searchNumLit "minute".data text.data = none →
        searchNumLit "second".data text.data = none →
        List.lookup "duration_seconds" (_extract_time text) = some (EVal.vn (v * 3600)))
  ∧ _extract_time "set alarm for 7:30 pm" = [("hour", EVal.vn 19), ("minute", EVal.vn 30)]
  ∧ _extract_time "remind me in 2 hours" =
      [("hour", EVal.vn 2), ("minute", EVal.vn 0), ("duration_seconds", EVal.vn 7200)] := by
  refine ⟨?_, ?_, ?_, by decide, by decide⟩
  · intro text h mo p hs hpm h12
    have h12' : (h != 12) = true := by simpa using h12
    simp [_extract_time, clockEntries, hs, normalizeHour, hpm, h12', List.lookup]
  · intro text mo p hs ham
    simp [_extract_time, clockEntries, hs, normalizeHour, ham, List.lookup]
  · intro text v hh hm hsec
    simp only [_extract_time, durOf, hh, hm, hsec]
    cases hc : searchClock text.data <;>
      simp [clockEntries, hc, List.lookup]

theorem extract_time_spec_amended_witness :
    List.lookup "hour" (_extract_time "1 pm") = some (EVal.vn 13) ∧
    List.lookup "hour" (_extract_time "12 am") = some (EVal.vn 0) ∧
    List.lookup "duration_seconds" (_extract_time "2 hours") = some (EVal.vn 7200) := by
  refine ⟨?_, ?_, ?_⟩
  · exact extract_time_spec_amended.1 "1 pm" 1 none ['p', 'm'] (by decide) (by decide)
      (by decide)
  · exact extract_time_spec_amended.2.1 "12 am" none ['a', 'm'] (by decide) (by decide)
  · exact extract_time_spec_amended.2.2.1 "2 hours" 2 (by decide) (by decide) (by decide)

/-- C10: the duration patterns are tried in the fixed order hours,
minutes, seconds, each match overwriting `duration_seconds`, so the final
value is the conversion of the last-listed matching unit alone — never a
sum; in particular `"in 1 hour 30 minutes"` yields 1800 seconds, not
5400. -/
theorem duration_overwrite_spec :
    (∀ (l : List Char) (v : Nat),
        searchNumLit "second".data l = some v → durOf l = some v)
  ∧ (∀ (l : List Char) (v : Nat),
        searchNumLit "second".data l = none → searchNumLit "minute".data l = some v →
        durOf l = some (v * 60))
  ∧ (∀ (l : List Char) (v : Nat),
        searchNumLit "second".data l = none → searchNumLit "minute".data l = none →
        searchNumLit "hour".data l = some v → durOf l = some (v * 3600))
  ∧ List.lookup "duration_seconds" (_extract_time "in 1 hour 30 minutes") =
      some (EVal.vn 1800)
  ∧ List.lookup "duration_seconds" (_extract_time "in 1 hour 30 minutes") ≠
      some (EVal.vn 5400) := by
  refine ⟨?_, ?_, ?_, by decide, by decide⟩
  · intro l v hs
    simp [durOf, hs]
  · intro l v hs hm
    simp [durOf, hs, hm]
  · intro l v hs hm hh
    simp [durOf, hs, hm, hh]

theorem duration_overwrite_spec_witness :
    durOf "in 1 hour 30 minutes".data = some 1800 := by
  exact duration_overwrite_spec.2.1 "in 1 hour 30 minutes".data 30 (by decide) (by decide)

/-- C4 counterexample: for `"send whatsapp to john saying hello there"`
the greedy capture `(\w+(?:\s+\w+)?)` takes the two-word phrase after
`to`, so the recipient is `"john saying"`, not `"john"`. -/
theorem process_whatsapp_recipient_counter :
    (process "send whatsapp to john saying hello there").2.lookup "recipient" =
        some (EVal.vs "john saying") ∧
    (process "send whatsapp to john saying hello there").2.lookup "recipient" ≠
        some (EVal.vs "john") := by
  constructor <;> decide

/-- C4 amended: `"send whatsapp to john saying hello there"` is
classified `send_whatsapp`; the recipient capture after `to` greedily
takes up to two words, hence `recipient = "john saying"`, while the
message capture after `saying` yields `"hello there"`. -/
theorem process_whatsapp_example_amended :
    process "send whatsapp to john saying hello there" =
      ("send_whatsapp",
       [("recipient", EVal.vs "john saying"), ("message", EVal.vs "hello there")]) := by
  decide

/-- C5 counterexample: on `"remind me to call mom at 5pm"` the stopword
pass removes only `remind` and the time pass removes `at 5pm`, leaving
`"me to call mom"` — not `"to call mom"` as claimed. -/
theorem extract_task_text_counter :
    _extract_task_text "remind me to call mom at 5pm" "set_reminder" = "me to call mom" ∧
    _extract_task_text "remind me to call mom at 5pm" "set_reminder" ≠ "to call mom" := by
  constructor <;> decide

/-- C5 amended: task-text extraction replaces every occurrence of the
stopwords `todo`, `to do`, `task`, `remind`, `reminder`, `create`, `add`,
`set` (in that order) by the empty string, then deletes time-expression
substrings, and returns the trimmed remainder, which may be empty; for
`"remind me to call mom at 5pm"` the result is `"me to call mom"` (the
word `me` is not a stopword and survives). -/
theorem extract_task_text_spec_amended :
    _extract_task_text "remind me to call mom at 5pm" "set_reminder" = "me to call mom"
  ∧ _extract_task_text "to do homework" "create_todo" = "homework"
  ∧ _extract_task_text "set task at 5pm" "create_todo" = "" := by
  refine ⟨by decide, by decide, by decide⟩

/-- C6: app-name extraction consults the alias table first (any alias
occurring as a substring forces an alias-table result), then the ordered
regex fallbacks capturing the word after `open`/`launch`/`close`/`start`,
then the sentinel `"unknown"`; `"open chrome"` resolves the alias to
`"google chrome"`, `"open xyz123"` uses the regex fallback, and `"open"`
alone yields `"unknown"`. -/
theorem extract_app_name_spec (text : String) :
    (∀ p ∈ app_aliases, hasSub p.1 text = true →
        ∃ q ∈ app_aliases, hasSub q.1 text = true ∧ _extract_app_name text = q.2)
  ∧ ((∀ p ∈ app_aliases, hasSub p.1 text = false) →
      scanFirst (appWordAtt "open".data) text.data = none →
      scanFirst (appWordAtt "launch".data) text.data = none →
      scanFirst (appWordAtt "close".data) text.data = none →
      scanFirst (appWordAtt "start".data) text.data = none →
      _extract_app_name text = "unknown")
  ∧ ((∀ p ∈ app_aliases, hasSub p.1 text = false) →
      ∀ w, scanFirst (appWordAtt "open".data) text.data = some w →
      _extract_app_name text = String.mk w)
  ∧ _extract_app_name "open chrome" = "google chrome"
  ∧ _extract_app_name "open xyz123" = "xyz123"
  ∧ _extract_app_name "open" = "unknown" := by
  refine ⟨?_, ?_, ?_, by decide, by decide, by decide⟩
  · intro p hp hsub
    cases hf : app_aliases.find? (fun q => hasSub q.1 text) with
    | none =>
      have := allOfFindNone _ _ hf p hp
      rw [this] at hsub
      exact absurd hsub (by simp)
    | some q =>
      have hq : hasSub q.1 text = true := by
        have hq' := List.find?_some hf
        simpa using hq'
      refine ⟨q, List.mem_of_find?_eq_some hf, hq, ?_⟩
      simp [_extract_app_name, hf]
  · intro hal h1 h2 h3 h4
    have hf : app_aliases.find? (fun q => hasSub q.1 text) = none :=
      findNoneOfAll _ _ hal
    simp [_extract_app_name, hf, h1, h2, h3, h4]
  · intro hal w hw
    have hf : app_aliases.find? (fun q => hasSub q.1 text) = none :=
      findNoneOfAll _ _ hal
    simp [_extract_app_name, hf, hw]

theorem extract_app_name_spec_witness :
    (∃ q ∈ app_aliases, hasSub q.1 "open chrome" = true ∧
        _extract_app_name "open chrome" = q.2) ∧
    _extract_app_name "zzz" = "unknown" ∧
    _extract_app_name "open xyz123" = String.mk ['x', 'y', 'z', '1', '2', '3'] := by
  refine ⟨?_, ?_, ?_⟩
  · exact (extract_app_name_spec "open chrome").1 ("chrome", "google chrome")
      (by decide) (by decide)
  · exact (extract_app_name_spec "zzz").2.1 (by decide) (by decide) (by decide)
      (by decide) (by decide)
  · exact (extract_app_name_spec "open xyz123").2.2.1 (by decide)
      ['x', 'y', 'z', '1', '2', '3'] (by decide)

/-- C7 counterexample: on the utterance `"unmute"` the action extractor
returns `"mute"`, not `"unmute"`: the `mute/silent` bucket is tested
first and `"unmute"` contains `"mute"` as a substring. -/
theorem extract_action_unmute_counter :
    _extract_action "unmute" = "mute" ∧ _extract_action "unmute" ≠ "unmute" := by
  constructor <;> decide

/-- C7 amended: level extraction tries, in order, an explicit
`N percent|%` capture, then the keyword buckets (max → 100, min → 0,
half → 50), else `None`; action extraction buckets keywords in the order
increase, decrease, mute, unmute with default `"set"` — and because every
text containing `unmute` contains `mute`, the `mute/silent` bucket always
fires first and the action `"unmute"` is unreachable; `"set volume to 50
percent"` yields `level = 50, action = "set"` and `"turn volume up"`
yields `level = None, action = "increase"`. -/
theorem extract_level_action_spec_amended :
    (∀ (text : String) (v : Nat), scanFirst percentAtt text.data = some v →
        _extract_level text = some v)
  ∧ (∀ text : String, scanFirst percentAtt text.data = none →
        ["max", "maximum", "full", "hundred"].any (fun w => hasSub w text) = true →
        _extract_level text = some 100)
  ∧ (∀ text : String, scanFirst percentAtt text.data = none →
        ["max", "maximum", "full", "hundred"].any (fun w => hasSub w text) = false →
        ["min", "minimum", "zero"].any (fun w => hasSub w text) = true →
        _extract_level text = some 0)
  ∧ (∀ text : String, scanFirst percentAtt text.data = none →
        ["max", "maximum", "full", "hundred"].any (fun w => hasSub w text) = false →
        ["min", "minimum", "zero"].any (fun w => hasSub w text) = false →
        ["half", "fifty"].any (fun w => hasSub w text) = true →
        _extract_level text = some 50)
  ∧ (∀ text : String, scanFirst percentAtt text.data = none →
        ["max", "maximum", "full", "hundred"].any (fun w => hasSub w text) = false →
        ["min", "minimum", "zero"].any (fun w => hasSub w text) = false →
        ["half", "fifty"].any (fun w => hasSub w text) = false →
        _extract_level text = none)
  ∧ (∀ text : String,
        ["up", "increase", "raise", "higher", "louder", "brighter"].any
          (fun w => hasSub w text) = true →
        _extract_action text = "increase")
  ∧ (∀ text : String,
        ["up", "increase", "raise", "higher", "louder", "brighter"].any
          (fun w => hasSub w text) = false →
        ["down", "decrease", "lower", "dimmer", "quieter"].any
          (fun w => hasSub w text) = true →
        _extract_action text = "decrease")
  ∧ (∀ text : String,
        ["up", "increase", "raise", "higher", "louder", "brighter"].any
          (fun w => hasSub w text) = false →
        ["down", "decrease", "lower", "dimmer", "quieter"].any
          (fun w => hasSub w text) = false →
        (hasSub "mute" text || hasSub "silent" text) = true →
        _extract_action text = "mute")
  ∧ (∀ text : String,
        ["up", "increase", "raise", "higher", "louder", "brighter"].any
          (fun w => hasSub w text) = false →
        ["down", "decrease", "lower", "dimmer", "quieter"].any
          (fun w => hasSub w text) = false →
        hasSub "unmute" text = true →
        _extract_action text = "mute")
  ∧ (∀ text : String,
        ["up", "increase", "raise", "higher", "louder", "brighter"].any
          (fun w => hasSub w text) = false →
        ["down", "decrease", "lower", "dimmer", "quieter"].any
          (fun w => hasSub w text) = false →
        hasSub "mute" text = false → hasSub "silent" text = false →
        _extract_action text = "set")
  ∧ _extract_level "set volume to 50 percent" = some 50
  ∧ _extract_action "set volume to 50 percent" = "set"
  ∧ _extract_level "turn volume up" = none
  ∧ _extract_action "turn volume up" = "increase" := by
  refine ⟨?_, ?_, ?_, ?_, ?_, ?_, ?_, ?_, ?_, ?_, by decide, by decide, by decide, by decide⟩
  · intro text v hp
    simp [_extract_level, hp]
  · intro text hp h1
    simp [_extract_level, hp, h1]
  · intro text hp h1 h2
    simp [_extract_level, hp, h1, h2]
  · intro text hp h1 h2 h3
    simp [_extract_level, hp, h1, h2, h3]
  · intro text hp h1 h2 h3
    simp [_extract_level, hp, h1, h2, h3]
  · intro text h1
    simp [_extract_action, h1]
  · intro text h1 h2
    simp [_extract_action, h1, h2]
  · intro text h1 h2 h3
    simp [_extract_action, h1, h2, h3]
  · intro text h1 h2 h3
    have hm : hasSub "mute" text = true :=
      subTrans "un".data "mute".data text.data h3
    simp [_extract_action, h1, h2, hm]
  · intro text h1 h2 h3 h4
    have hu : hasSub "unmute" text = false := by
      cases hq : hasSub "unmute" text with
      | false => rfl
      | true =>
        have hm := subTrans "un".data "mute".data text.data hq
        exact absurd hm (by simpa [hasSub] using h3)
    simp only [_extract_action, h1, h2, h3, h4, hu]
    simp

theorem extract_level_action_spec_amended_witness :
    _extract_level "make it full blast" = some 100 ∧
    _extract_action "unmute the tv" = "mute" ∧
    _extract_action "adjust the tone" = "set" := by
  refine ⟨?_, ?_, ?_⟩
  · exact extract_level_action_spec_amended.2.1 "make it full blast" (by decide) (by decide)
  · exact extract_level_action_spec_amended.2.2.2.2.2.2.2.2.1 "unmute the tv"
      (by decide) (by decide) (by decide)
  · exact extract_level_action_spec_amended.2.2.2.2.2.2.2.2.2.1 "adjust the tone"
      (by decide) (by decide) (by decide) (by decide)

/-- C8: the reference resolver is an identity on pronoun-free input, and
a pronoun whose context key is absent is left untouched: without
`last_app` the `it`/`that` branch changes nothing (the resolver reduces
to the recipient branch alone), and without `last_recipient` the
`him`/`her`/`them` branch changes nothing. -/
theorem resolve_pronoun_reference_spec (ctx : ConvContext) (text : String) :
    ((hasSub "it" (String.mk (text.data.map asciiLower)) = false ∧
      hasSub "that" (String.mk (text.data.map asciiLower)) = false ∧
      hasSub "this" (String.mk (text.data.map asciiLower)) = false ∧
      hasSub "him" (String.mk (text.data.map asciiLower)) = false ∧
      hasSub "her" (String.mk (text.data.map asciiLower)) = false ∧
      hasSub "them" (String.mk (text.data.map asciiLower)) = false) →
      resolve_pronoun_reference ctx text = text)
  ∧ (ctx.lastApp = none →
      resolve_pronoun_reference ctx text =
        recipStep ctx (String.mk (text.data.map asciiLower)) text)
  ∧ (ctx.lastRecipient = none →
      resolve_pronoun_reference ctx text =
        appStep ctx (String.mk (text.data.map asciiLower)) text) := by
  refine ⟨?_, ?_, ?_⟩
  · rintro ⟨h1, h2, h3, h4, h5, h6⟩
    simp only [resolve_pronoun_reference, appStep, recipStep, h1, h2, h3, h4, h5, h6]
    simp
  · intro h
    have happ : appStep ctx (String.mk (text.data.map asciiLower)) text = text := by
      unfold appStep
      rw [h]
      split <;> rfl
    simp only [resolve_pronoun_reference, happ]
  · intro h
    have hrec : ∀ t : String,
        recipStep ctx (String.mk (text.data.map asciiLower)) t = t := by
      intro t
      unfold recipStep
      rw [h]
      split <;> rfl
    simp only [resolve_pronoun_reference, hrec]

theorem resolve_pronoun_reference_spec_witness :
    resolve_pronoun_reference ⟨some "chrome", some "bob"⟩ "open spotify" = "open spotify" ∧
    resolve_pronoun_reference ⟨none, some "bob"⟩ "close it" = "close it" ∧
    resolve_pronoun_reference ⟨some "chrome", none⟩ "message him" = "message him" := by
  refine ⟨?_, ?_, ?_⟩
  · exact (resolve_pronoun_reference_spec ⟨some "chrome", some "bob"⟩ "open spotify").1
      ⟨by decide, by decide, by decide, by decide, by decide, by decide⟩
  · have h := (resolve_pronoun_reference_spec ⟨none, some "bob"⟩ "close it").2.1 rfl
    exact h.trans (by decide)
  · have h := (resolve_pronoun_reference_spec ⟨some "chrome", none⟩ "message him").2.2 rfl
    exact h.trans (by decide)

/-! Scan-failure helpers for the sentinel claim. -/

theorem scanLitsNone {α : Type} (att : List Char → Option α) (lits : List (List Char))
    (hatt : ∀ l, (∀ p ∈ lits, startsWithL p l = false) → att l = none) :
    ∀ l, (∀ p ∈ lits, hasSubL p l = false) → scanFirst att l = none := by
  intro l h
  refine scanFirstNoneInd att (fun s => ∀ p ∈ lits, hasSubL p s = false) ?_ ?_ l h
  · intro s hs
    exact hatt s (fun p hp => subHead _ _ (hs p hp))
  · intro c cs hs p hp
    exact subTail _ _ _ (hs p hp)

theorem scanLitsNoneCI {α : Type} (att : List Char → Option α) (lits : List (List Char))
    (hatt : ∀ l, (∀ p ∈ lits, startsWithCIL p l = false) → att l = none) :
    ∀ l, (∀ p ∈ lits, hasSubL p (l.map asciiLower) = false) → scanFirst att l = none := by
  intro l h
  refine scanFirstNoneInd att
    (fun s => ∀ p ∈ lits, hasSubL p (s.map asciiLower) = false) ?_ ?_ l h
  · intro s hs
    refine hatt s (fun p hp => ?_)
    rw [startsWithCIL_eq]
    exact subHead _ _ (hs p hp)
  · intro c cs hs p hp
    have h' := hs p hp
    rw [List.map_cons] at h'
    exact subTail _ _ _ h'

theorem scanDigitNone {α : Type} (att : List Char → Option α)
    (hatt : ∀ c cs, isDigitChar c = false → att (c :: cs) = none) (hnil : att [] = none) :
    ∀ l, l.all (fun c => !isDigitChar c) = true → scanFirst att l = none := by
  intro l h
  refine scanFirstNoneInd att (fun s => s.all (fun c => !isDigitChar c) = true) ?_ ?_ l h
  · intro s hs
    cases s with
    | nil => exact hnil
    | cons c cs =>
      simp only [List.all_cons, Bool.and_eq_true, Bool.not_eq_true'] at hs
      exact hatt c cs hs.1
  · intro c cs hs
    simp only [List.all_cons, Bool.and_eq_true] at hs
    exact hs.2

theorem msgAttNone (lits : List (List Char)) (l : List Char)
    (h : ∀ p ∈ lits, startsWithCIL p l = false) : msgAttFor lits l = none := by
  induction lits with
  | nil => rfl
  | cons a rest ih =>
    simp only [msgAttFor, h a (by simp)]
    exact ih (fun p hp => h p (by simp [hp]))

/-- C9: every extractor is a total function (the Lean embedding is
total by construction, matching the absence of exception paths in the
source), and when its patterns find nothing it returns the
type-appropriate empty sentinel: `""` for recipient, message, task and
query, `none` for level and the spec-modelled task id, `"unknown"` for
app name, and no keys at all for time. -/
theorem extractors_sentinel_spec :
    (∀ text : String,
        hasSub "to" text = false → hasSub "message" text = false →
        hasSub "whatsapp" text = false → hasSub "email" text = false →
        _extract_recipient text = "")
  ∧ (∀ text : String,
        hasSubL "saying".data (text.data.map asciiLower) = false →
        hasSubL "message".data (text.data.map asciiLower) = false →
        hasSubL "text".data (text.data.map asciiLower) = false →
        hasSubL "that".data (text.data.map asciiLower) = false →
        hasSubL "tell them".data (text.data.map asciiLower) = false →
        _extract_message text = "")
  ∧ (∀ text : String, (∀ p ∈ app_aliases, hasSub p.1 text = false) →
        hasSub "open" text = false → hasSub "launch" text = false →
        hasSub "close" text = false → hasSub "start" text = false →
        _extract_app_name text = "unknown")
  ∧ (∀ text : String, text.data.all (fun c => !isDigitChar c) = true →
        _extract_time text = [])
  ∧ (∀ text : String, text.data.all (fun c => !isDigitChar c) = true →
        (["max", "maximum", "full", "hundred", "min", "minimum", "zero", "half",
          "fifty"].all (fun w => !hasSub w text)) = true →
        _extract_level text = none)
  ∧ (∀ intent : String, _extract_task_text " remind " intent = "")
  ∧ (∀ intent : String, _extract_search_query "search for " intent = "")
  ∧ (∀ text : String, hasSub "task" text = false → hasSub "number" text = false →
        extract_task_id text = none) := by
  refine ⟨?_, ?_, ?_, ?_, ?_, ?_, ?_, ?_⟩
  · intro text h1 h2 h3 h4
    have s1 : scanFirst recipAtt1 text.data = none := by
      refine scanLitsNone _ ["to".data, "message".data] ?_ text.data ?_
      · intro l h
        simp [recipAtt1, h "to".data (by simp), h "message".data (by simp)]
      · intro p hp
        simp only [List.mem_cons, List.mem_singleton] at hp
        rcases hp with rfl | rfl | hp
        · exact h1
        · exact h2
        · simp at hp
    have s2 : scanFirst recipAtt2 text.data = none := by
      refine scanLitsNone _ ["whatsapp".data, "email".data] ?_ text.data ?_
      · intro l h
        simp [recipAtt2, h "whatsapp".data (by simp), h "email".data (by simp)]
      · intro p hp
        simp only [List.mem_cons, List.mem_singleton] at hp
        rcases hp with rfl | rfl | hp
        · exact h3
        · exact h4
        · simp at hp
    simp [_extract_recipient, s1, s2]
  · intro text h1 h2 h3 h4 h5
    have s1 : scanFirst (msgAttFor ["saying".data, "message".data, "text".data])
        text.data = none := by
      refine scanLitsNoneCI _ ["saying".data, "message".data, "text".data] ?_ text.data ?_
      · intro l h
        exact msgAttNone _ _ h
      · intro p hp
        simp only [List.mem_cons, List.mem_singleton] at hp
        rcases hp with rfl | rfl | rfl | hp
        · exact h1
        · exact h2
        · exact h3
        · simp at hp
    have s2 : scanFirst (msgAttFor ["that".data, "tell them".data]) text.data = none := by
      refine scanLitsNoneCI _ ["that".data, "tell them".data] ?_ text.data ?_
      · intro l h
        exact msgAttNone _ _ h
      · intro p hp
        simp only [List.mem_cons, List.mem_singleton] at hp
        rcases hp with rfl | rfl | hp
        · exact h4
        · exact h5
        · simp at hp
    simp [_extract_message, s1, s2]
  · intro text hal h1 h2 h3 h4
    have hf : app_aliases.find? (fun q => hasSub q.1 text) = none :=
      findNoneOfAll _ _ hal
    have sw1 : scanFirst (appWordAtt "open".data) text.data = none := by
      refine scanLitsNone _ ["open".data] ?_ text.data ?_
      · intro l h
        simp [appWordAtt, h "open".data (by simp)]
      · intro p hp
        simp only [List.mem_singleton] at hp
        subst hp; exact h1
    have sw2 : scanFirst (appWordAtt "launch".data) text.data = none := by
      refine scanLitsNone _ ["launch".data] ?_ text.data ?_
      · intro l h
        simp [appWordAtt, h "launch".data (by simp)]
      · intro p hp
        simp only [List.mem_singleton] at hp
        subst hp; exact h2
    have sw3 : scanFirst (appWordAtt "close".data) text.data = none := by
      refine scanLitsNone _ ["close".data] ?_ text.data ?_
      · intro l h
        simp [appWordAtt, h "close".data (by simp)]
      · intro p hp
        simp only [List.mem_singleton] at hp
        subst hp; exact h3
    have sw4 : scanFirst (appWordAtt "start".data) text.data = none := by
      refine scanLitsNone _ ["start".data] ?_ text.data ?_
      · intro l h
        simp [appWordAtt, h "start".data (by simp)]
      · intro p hp
        simp only [List.mem_singleton] at hp
        subst hp; exact h4
    simp [_extract_app_name, hf, sw1, sw2, sw3, sw4]
  · intro text hd
    have hc : scanFirst clockAtt text.data = none := by
      refine scanDigitNone _ ?_ rfl text.data hd
      intro c cs h
      simp [clockAtt, h]
    have hnum : ∀ lit : List Char, scanFirst (numLitAtt lit) text.data = none := by
      intro lit
      refine scanDigitNone _ ?_ rfl text.data hd
      intro c cs h
      simp [numLitAtt, h]
    simp [_extract_time, clockEntries, searchClock, hc, durOf, searchNumLit, hnum]
  · intro text hd hk
    have hp : scanFirst percentAtt text.data = none := by
      refine scanDigitNone _ ?_ rfl text.data hd
      intro c cs h
      simp [percentAtt, h]
    simp only [List.all_cons, List.all_nil, Bool.and_eq_true, Bool.not_eq_true'] at hk
    obtain ⟨k1, k2, k3, k4, k5, k6, k7, k8, k9, -⟩ := hk
    simp [_extract_level, hp, k1, k2, k3, k4, k5, k6, k7, k8, k9]
  · intro intent
    rfl
  · intro intent
    rfl
  · intro text h1 h2
    refine scanLitsNone _ ["task".data, "number".data] ?_ text.data ?_
    · intro l h
      simp [taskIdAtt, h "task".data (by simp), h "number".data (by simp)]
    · intro p hp
      simp only [List.mem_cons, List.mem_singleton] at hp
      rcases hp with rfl | rfl | hp
      · exact h1
      · exact h2
      · simp at hp

theorem extractors_sentinel_spec_witness :
    _extract_recipient "zzz" = "" ∧ _extract_message "zzz" = "" ∧
    _extract_app_name "zzz" = "unknown" ∧ _extract_time "zzz" = [] ∧
    _extract_level "zzz" = none ∧ _extract_task_text " remind " "set_reminder" = "" ∧
    _extract_search_query "search for " "search" = "" ∧ extract_task_id "zzz" = none := by
  refine ⟨?_, ?_, ?_, ?_, ?_, ?_, ?_, ?_⟩
  · exact extractors_sentinel_spec.1 "zzz" (by decide) (by decide) (by decide) (by decide)
  · exact extractors_sentinel_spec.2.1 "zzz" (by decide) (by decide) (by decide)
      (by decide) (by decide)
  · exact extractors_sentinel_spec.2.2.1 "zzz" (by decide) (by decide) (by decide)
      (by decide) (by decide)
  · exact extractors_sentinel_spec.2.2.2.1 "zzz" (by decide)
  · exact extractors_sentinel_spec.2.2.2.2.1 "zzz" (by decide) (by decide)
  · exact extractors_sentinel_spec.2.2.2.2.2.1 "set_reminder"
  · exact extractors_sentinel_spec.2.2.2.2.2.2.1 "search"
  · exact extractors_sentinel_spec.2.2.2.2.2.2.2 "zzz" (by decide) (by decide)
